import Mathlib

/-!
Shallow embedding of the go-car-service repository (Gin HTTP handlers,
service layer, SQL repository over a `cars` table with soft deletion).

Modelling conventions:
* Go `float64` manufacturing values are modelled as exact rationals (`Rat`);
  every comparison appearing in the code (`<= 0`, `>= 15000000`, `BETWEEN`)
  is exact for the values involved.
* `time.Time` instants are modelled as abstract `Nat` ticks carried in the
  database state (`DB.now`); the RFC3339 rendering performed by
  `Car.ToResponse` in Go is injective on instants, so timestamp equality is
  preserved by keeping the instants themselves in `CarResponse`.
* Go errors are modelled by `GoError`: a `sentinel` value (such as
  `sql.ErrNoRows`) or a `plain` message produced by `errors.New` /
  `fmt.Errorf` with the `%v` verb.  The source never uses the wrapping verb
  `%w`, so `errors.Is` reduces to equality on these flat values, exactly as
  in Go where a freshly formatted error matches no sentinel.
* The SQL table is a list of rows; `QueryRow` takes the first matching row
  and yields the `sql.ErrNoRows` sentinel when none matches.  The serial
  primary key is modelled by `DB.nextId`.
-/

/-- Go error values as used by this repository: sentinels compared by
identity (for example `sql.ErrNoRows`) and flat formatted messages. -/
inductive GoError where
  | sentinel (name : String)
  | plain (msg : String)
deriving DecidableEq, Repr

/-- The `Error()` text of a Go error value. -/
def GoError.text : GoError → String
  | .sentinel n => n
  | .plain m => m

/-- The `database/sql` sentinel returned when a query yields no row. -/
def sqlErrNoRows : GoError := .sentinel "sql: no rows in result set"

/-- `errors.Is` for this codebase: no error is ever produced with the `%w`
wrapping verb, so the unwrap chain is empty and the check is equality. -/
def errorsIs (e target : GoError) : Bool := e == target

/-- `model.Car`: the storage-shape record (no deleted-at column is ever
selected). -/
structure Car where
  id : Int
  name : String
  brand : String
  manufacturingValue : Rat
  description : Option String
  createdAt : Nat
  updatedAt : Nat
deriving DecidableEq, Repr

/-- `model.CarRequest`: the JSON payload for create and update. -/
structure CarRequest where
  name : String
  brand : String
  manufacturingValue : Rat
  description : Option String
deriving DecidableEq, Repr

/-- `model.CarResponse`: the wire-shape record (timestamps kept as abstract
instants, see module comment). -/
structure CarResponse where
  id : Int
  name : String
  brand : String
  manufacturingValue : Rat
  description : Option String
  createdAt : Nat
  updatedAt : Nat
deriving DecidableEq, Repr

/-- `model.Car.ToResponse`. -/
def Car.ToResponse (c : Car) : CarResponse :=
  { id := c.id
    name := c.name
    brand := c.brand
    manufacturingValue := c.manufacturingValue
    description := c.description
    createdAt := c.createdAt
    updatedAt := c.updatedAt }

/-- `model.CarRequest.ToModel`: business fields from the request, zero
values for the storage-owned fields. -/
def CarRequest.ToModel (r : CarRequest) : Car :=
  { id := 0
    name := r.name
    brand := r.brand
    manufacturingValue := r.manufacturingValue
    description := r.description
    createdAt := 0
    updatedAt := 0 }

/-- `model.Car.UpdateFromRequest`: full replace of the business fields. -/
def Car.UpdateFromRequest (c : Car) (r : CarRequest) : Car :=
  { c with
    name := r.name
    brand := r.brand
    manufacturingValue := r.manufacturingValue
    description := r.description }

/-- One row of the `cars` table, including the soft-delete marker. -/
structure Row where
  id : Int
  name : String
  brand : String
  manufacturingValue : Rat
  description : Option String
  createdAt : Nat
  updatedAt : Nat
  deletedAt : Option Nat
deriving DecidableEq, Repr

/-- A row is live iff its deleted-at is null. -/
def Row.live (r : Row) : Bool := r.deletedAt.isNone

/-- Projection of a row onto the selected columns (`deleted_at` is never
selected). -/
def Row.toCar (r : Row) : Car :=
  { id := r.id
    name := r.name
    brand := r.brand
    manufacturingValue := r.manufacturingValue
    description := r.description
    createdAt := r.createdAt
    updatedAt := r.updatedAt }

/-- The database state: the `cars` table, the serial-id counter, and the
current clock tick used for `time.Now()`. -/
structure DB where
  rows : List Row
  nextId : Int
  now : Nat
deriving DecidableEq, Repr

/-- Rows visible to every standard query (`deleted_at IS NULL`). -/
def DB.liveRows (db : DB) : List Row := db.rows.filter fun r => r.live

/-- `QueryRow` over the table: first row satisfying the predicate among live
rows, `sql.ErrNoRows` when none does. -/
def selectOne (db : DB) (p : Row → Bool) : Except GoError Row :=
  match (db.rows.filter fun r => p r && r.live).head? with
  | some r => .ok r
  | none => .error sqlErrNoRows

/-- Comparison used by `ORDER BY id`. -/
def rowIdLe (a b : Row) : Prop := a.id ≤ b.id

instance : DecidableRel rowIdLe := fun a b => inferInstanceAs (Decidable (a.id ≤ b.id))

instance : IsTotal Row rowIdLe := ⟨fun a b => Int.le_total a.id b.id⟩

instance : IsTrans Row rowIdLe := ⟨fun _ _ _ hab hbc => le_trans hab hbc⟩

namespace DbRepo

/-- `carRepository.Create`: INSERT with fresh timestamps, RETURNING the
generated serial id. -/
def Create (db : DB) (car : Car) : (Except GoError Int) × DB :=
  let id := db.nextId
  let row : Row :=
    { id := id
      name := car.name
      brand := car.brand
      manufacturingValue := car.manufacturingValue
      description := car.description
      createdAt := db.now
      updatedAt := db.now
      deletedAt := none }
  (.ok id, { db with rows := db.rows ++ [row], nextId := db.nextId + 1 })

/-- `carRepository.GetByID`: SELECT ... WHERE id = $1 AND deleted_at IS
NULL; `sql.ErrNoRows` is flattened into a fresh message by `fmt.Errorf`
with `%v`. -/
def GetByID (db : DB) (id : Int) : Except GoError Car :=
  match selectOne db (fun r => r.id == id) with
  | .ok r => .ok r.toCar
  | .error e =>
    if errorsIs e sqlErrNoRows then
      .error (.plain ("car with ID " ++ toString id ++ " not found"))
    else
      .error (.plain ("failed to get car: " ++ e.text))

/-- `carRepository.GetByName`: SELECT ... WHERE name = $1 AND deleted_at IS
NULL. -/
def GetByName (db : DB) (name : String) : Except GoError Car :=
  match selectOne db (fun r => r.name == name) with
  | .ok r => .ok r.toCar
  | .error e =>
    if errorsIs e sqlErrNoRows then
      .error (.plain ("car with name " ++ name ++ " not found"))
    else
      .error (.plain ("failed to get car by name: " ++ e.text))

/-- `carRepository.GetByBrand`: SELECT ... WHERE brand = $1 AND deleted_at
IS NULL (an empty list, not an error, when none match). -/
def GetByBrand (db : DB) (brand : String) : Except GoError (List Car) :=
  .ok ((db.rows.filter fun r => r.brand == brand && r.live).map Row.toCar)

/-- `carRepository.GetByPriceRange`: SELECT ... WHERE manufacturing_value
BETWEEN $1 AND $2 AND deleted_at IS NULL (`BETWEEN` is inclusive). -/
def GetByPriceRange (db : DB) (minPrice maxPrice : Rat) : Except GoError (List Car) :=
  .ok ((db.rows.filter fun r =>
      decide (minPrice ≤ r.manufacturingValue) &&
      decide (r.manufacturingValue ≤ maxPrice) && r.live).map Row.toCar)

/-- `carRepository.GetAll`: SELECT ... WHERE deleted_at IS NULL ORDER BY id
LIMIT $1 OFFSET $2 with offset (page-1)*pageSize.  The service layer
normalizes page and pageSize before calling, so both arguments are
positive on every reachable call; `Int.toNat` is exact there. -/
def GetAll (db : DB) (page pageSize : Int) : Except GoError (List Car) :=
  let offset := (page - 1) * pageSize
  let sorted := List.insertionSort rowIdLe db.liveRows
  .ok (((sorted.drop offset.toNat).take pageSize.toNat).map Row.toCar)

/-- `carRepository.Update`: UPDATE of the business fields and updated_at
for the live row with the given id; not-found (as a flat message) when
zero rows were affected. -/
def Update (db : DB) (car : Car) : (Except GoError Unit) × DB :=
  let affected := (db.rows.filter fun r => r.id == car.id && r.live).length
  let newRows := db.rows.map fun r =>
    if r.id == car.id && r.live then
      { r with
        name := car.name
        brand := car.brand
        manufacturingValue := car.manufacturingValue
        description := car.description
        updatedAt := db.now }
    else r
  if affected == 0 then
    (.error (.plain ("car with ID " ++ toString car.id ++ " not found")),
     { db with rows := newRows })
  else
    (.ok (), { db with rows := newRows })

/-- `carRepository.Delete`: UPDATE cars SET deleted_at = now WHERE id = $2
AND deleted_at IS NULL; not-found (as a flat message) when zero rows were
affected. -/
def Delete (db : DB) (id : Int) : (Except GoError Unit) × DB :=
  let affected := (db.rows.filter fun r => r.id == id && r.live).length
  let newRows := db.rows.map fun r =>
    if r.id == id && r.live then { r with deletedAt := some db.now } else r
  if affected == 0 then
    (.error (.plain ("car with ID " ++ toString id ++ " not found")),
     { db with rows := newRows })
  else
    (.ok (), { db with rows := newRows })

end DbRepo

/-- The `repository.CarRepository` interface, over an abstract storage
state `σ` threaded through every call (any implementation may observe or
change its state on any call). -/
structure CarRepository (σ : Type) where
  Create : σ → Car → (Except GoError Int) × σ
  GetByID : σ → Int → (Except GoError Car) × σ
  GetByName : σ → String → (Except GoError Car) × σ
  GetByBrand : σ → String → (Except GoError (List Car)) × σ
  GetByPriceRange : σ → Rat → Rat → (Except GoError (List Car)) × σ
  GetAll : σ → Int → Int → (Except GoError (List Car)) × σ
  Update : σ → Car → (Except GoError Unit) × σ
  Delete : σ → Int → (Except GoError Unit) × σ

/-- The concrete SQL-backed implementation (`carRepository` in Go): reads
leave the state unchanged, writes return the updated table. -/
def dbRepo : CarRepository DB where
  Create := DbRepo.Create
  GetByID := fun db id => (DbRepo.GetByID db id, db)
  GetByName := fun db n => (DbRepo.GetByName db n, db)
  GetByBrand := fun db b => (DbRepo.GetByBrand db b, db)
  GetByPriceRange := fun db a b => (DbRepo.GetByPriceRange db a b, db)
  GetAll := fun db p ps => (DbRepo.GetAll db p ps, db)
  Update := DbRepo.Update
  Delete := DbRepo.Delete

namespace CarService

/-- `service.validateCarRequest`: field validation shared by create and
update (the Go nil-check cannot fire in this embedding, where a request
value is always present). -/
def validateCarRequest (req : CarRequest) : Except GoError Unit :=
  if req.name = "" then .error (.plain "car name is required")
  else if req.brand = "" then .error (.plain "car brand is required")
  else if req.manufacturingValue ≤ 0 then
    .error (.plain "manufacturing value must be greater than 0")
  else if req.manufacturingValue ≥ 15000000 then
    .error (.plain "manufacturing value must be less than 15,000,000")
  else .ok ()

/-- `carService.CreateCar`: validate, uniqueness lookup by name, insert,
then re-fetch the created record by the generated id. -/
def CreateCar (R : CarRepository σ) (s : σ) (req : CarRequest) :
    (Except GoError CarResponse) × σ :=
  match validateCarRequest req with
  | .error e => (.error e, s)
  | .ok _ =>
    let car := req.ToModel
    let lookup := R.GetByName s car.name
    match lookup.1 with
    | .ok _ =>
      (.error (.plain ("car with name " ++ car.name ++ " already exists")), lookup.2)
    | .error _ =>
      let created := R.Create lookup.2 car
      match created.1 with
      | .error e =>
        (.error (.plain ("failed to create car: " ++ e.text)), created.2)
      | .ok id =>
        let fetched := R.GetByID created.2 id
        match fetched.1 with
        | .error e =>
          (.error (.plain ("failed to fetch created car: " ++ e.text)), fetched.2)
        | .ok c => (.ok c.ToResponse, fetched.2)

/-- `carService.GetCarByID`. -/
def GetCarByID (R : CarRepository σ) (s : σ) (id : Int) :
    (Except GoError CarResponse) × σ :=
  if id ≤ 0 then (.error (.plain "invalid car ID"), s)
  else
    let got := R.GetByID s id
    match got.1 with
    | .error e => (.error (.plain ("failed to get car: " ++ e.text)), got.2)
    | .ok car => (.ok car.ToResponse, got.2)

/-- `carService.GetCarByName`. -/
def GetCarByName (R : CarRepository σ) (s : σ) (name : String) :
    (Except GoError CarResponse) × σ :=
  if name = "" then (.error (.plain "car name cannot be empty"), s)
  else
    let got := R.GetByName s name
    match got.1 with
    | .error e => (.error (.plain ("failed to get car: " ++ e.text)), got.2)
    | .ok car => (.ok car.ToResponse, got.2)

/-- `service.toCarResponses`. -/
def toCarResponses (cars : List Car) : List CarResponse :=
  cars.map Car.ToResponse

/-- `carService.GetAllCars`: silent normalization of page and pageSize
before the storage query. -/
def GetAllCars (R : CarRepository σ) (s : σ) (page pageSize : Int) :
    (Except GoError (List CarResponse)) × σ :=
  let page := if page < 1 then 1 else page
  let pageSize := if pageSize < 1 ∨ pageSize > 100 then 10 else pageSize
  let got := R.GetAll s page pageSize
  match got.1 with
  | .error e => (.error (.plain ("failed to get all cars: " ++ e.text)), got.2)
  | .ok cars => (.ok (toCarResponses cars), got.2)

/-- `carService.UpdateCar`: id check, field validation, fetch-then-merge,
persist, and re-fetch of the post-update record. -/
def UpdateCar (R : CarRepository σ) (s : σ) (id : Int) (req : CarRequest) :
    (Except GoError CarResponse) × σ :=
  if id ≤ 0 then (.error (.plain "invalid car ID"), s)
  else
    match validateCarRequest req with
    | .error e => (.error e, s)
    | .ok _ =>
      let got := R.GetByID s id
      match got.1 with
      | .error e => (.error (.plain ("failed to find car: " ++ e.text)), got.2)
      | .ok existingCar =>
        let merged := existingCar.UpdateFromRequest req
        let upd := R.Update got.2 merged
        match upd.1 with
        | .error e => (.error (.plain ("failed to update car: " ++ e.text)), upd.2)
        | .ok _ =>
          let refetched := R.GetByID upd.2 id
          match refetched.1 with
          | .error e =>
            (.error (.plain ("failed to fetch updated car: " ++ e.text)), refetched.2)
          | .ok c => (.ok c.ToResponse, refetched.2)

/-- `carService.DeleteCar`: id check, existence check, then soft delete. -/
def DeleteCar (R : CarRepository σ) (s : σ) (id : Int) :
    (Except GoError Unit) × σ :=
  if id ≤ 0 then (.error (.plain "invalid car ID"), s)
  else
    let got := R.GetByID s id
    match got.1 with
    | .error e => (.error (.plain ("failed to find car: " ++ e.text)), got.2)
    | .ok _ =>
      let del := R.Delete got.2 id
      match del.1 with
      | .error e => (.error (.plain ("failed to delete car: " ++ e.text)), del.2)
      | .ok _ => (.ok (), del.2)

end CarService

/-- `api.ErrorResponse`: the error envelope. -/
structure ErrorResponse where
  success : Bool
  message : String
  error : String
deriving DecidableEq, Repr

/-- Bodies a handler can serialize. -/
inductive HttpBody where
  | car (c : CarResponse)
  | cars (l : List CarResponse)
  | errBody (e : ErrorResponse)
  | empty
deriving DecidableEq, Repr

/-- An HTTP response: status code plus serialized body. -/
structure HttpResult where
  status : Nat
  body : HttpBody
deriving DecidableEq, Repr

/-- Decimal digit run of `strconv`: at least one digit, all digits. -/
def goParseDigits (acc : Nat) : List Char → Option Nat
  | [] => some acc
  | c :: cs => if c.isDigit then goParseDigits (acc * 10 + (c.toNat - 48)) cs else none

/-- Integer syntax accepted by `strconv.ParseInt(s, 10, 64)`: an optional
sign followed by one or more decimal digits (the inputs appearing in the
claims are far from the 64-bit boundary, so overflow is not modelled). -/
def goParseIntChars : List Char → Option Int
  | [] => none
  | '-' :: cs =>
    match cs with
    | [] => none
    | _ => (goParseDigits 0 cs).map fun n => -(n : Int)
  | '+' :: cs =>
    match cs with
    | [] => none
    | _ => (goParseDigits 0 cs).map fun n => (n : Int)
  | cs => (goParseDigits 0 cs).map fun n => (n : Int)

/-- `strconv.ParseInt(s, 10, 64)` as used for path parameters. -/
def goParseInt (s : String) : Option Int := goParseIntChars s.toList

/-- `strconv.Atoi` with its error discarded: Go returns 0 alongside the
error, and the handler keeps the 0. -/
def goAtoi (s : String) : Int := (goParseInt s).getD 0

namespace CarHandler

/-- `api.handleError`: logs and serializes the error envelope. -/
def handleError (statusCode : Nat) (message : String) (err : Option GoError) :
    HttpResult :=
  { status := statusCode
    body := .errBody
      { success := false
        message := message
        error := (err.map GoError.text).getD "" } }

/-- `CarHandler.CreateCar` (POST /cars), after a successful JSON bind: any
service-layer failure is mapped to 500. -/
def CreateCar (R : CarRepository σ) (s : σ) (req : CarRequest) : HttpResult × σ :=
  let res := CarService.CreateCar R s req
  match res.1 with
  | .error e => (handleError 500 "Failed to create car" (some e), res.2)
  | .ok car => ({ status := 201, body := .car car }, res.2)

/-- `CarHandler.GetCarByID` (GET /cars/:id): parse the path id, call the
service, and map `sql.ErrNoRows` to 404, everything else to 500. -/
def GetCarByID (R : CarRepository σ) (s : σ) (idParam : String) : HttpResult × σ :=
  match goParseInt idParam with
  | none => (handleError 400 "Invalid car ID" (some (.plain "invalid syntax")), s)
  | some id =>
    if id ≤ 0 then (handleError 400 "Invalid car ID" none, s)
    else
      let res := CarService.GetCarByID R s id
      match res.1 with
      | .error e =>
        if errorsIs e sqlErrNoRows then
          (handleError 404 "Car not found" (some e), res.2)
        else
          (handleError 500 "Failed to get car" (some e), res.2)
      | .ok car => ({ status := 200, body := .car car }, res.2)

/-- `CarHandler.GetCarByName` (GET /cars/name/:name). -/
def GetCarByName (R : CarRepository σ) (s : σ) (nameParam : String) : HttpResult × σ :=
  if nameParam = "" then (handleError 400 "Car name is required" none, s)
  else
    let res := CarService.GetCarByName R s nameParam
    match res.1 with
    | .error e =>
      if errorsIs e sqlErrNoRows then
        (handleError 404 "Car not found" (some e), res.2)
      else
        (handleError 500 "Failed to get car" (some e), res.2)
    | .ok car => ({ status := 200, body := .car car }, res.2)

/-- `CarHandler.GetAllCars` (GET /cars): query parameters default to "1"
and "10" when absent, and `strconv.Atoi` failures are discarded, leaving
the zero value. -/
def GetAllCars (R : CarRepository σ) (s : σ) (pageQ pageSizeQ : Option String) :
    HttpResult × σ :=
  let page := goAtoi (pageQ.getD "1")
  let pageSize := goAtoi (pageSizeQ.getD "10")
  let res := CarService.GetAllCars R s page pageSize
  match res.1 with
  | .error e => (handleError 500 "Failed to get cars" (some e), res.2)
  | .ok cars => ({ status := 200, body := .cars cars }, res.2)

/-- `CarHandler.UpdateCar` (PUT /cars/:id), after a successful JSON bind. -/
def UpdateCar (R : CarRepository σ) (s : σ) (idParam : String) (req : CarRequest) :
    HttpResult × σ :=
  match goParseInt idParam with
  | none => (handleError 400 "Invalid car ID" (some (.plain "invalid syntax")), s)
  | some id =>
    if id ≤ 0 then (handleError 400 "Invalid car ID" none, s)
    else
      let res := CarService.UpdateCar R s id req
      match res.1 with
      | .error e =>
        if errorsIs e sqlErrNoRows then
          (handleError 404 "Car not found" (some e), res.2)
        else
          (handleError 500 "Failed to update car" (some e), res.2)
      | .ok car => ({ status := 200, body := .car car }, res.2)

/-- `CarHandler.DeleteCar` (DELETE /cars/:id). -/
def DeleteCar (R : CarRepository σ) (s : σ) (idParam : String) : HttpResult × σ :=
  match goParseInt idParam with
  | none => (handleError 400 "Invalid car ID" (some (.plain "invalid syntax")), s)
  | some id =>
    if id ≤ 0 then (handleError 400 "Invalid car ID" none, s)
    else
      let res := CarService.DeleteCar R s id
      match res.1 with
      | .error e =>
        if errorsIs e sqlErrNoRows then
          (handleError 404 "Car not found" (some e), res.2)
        else
          (handleError 500 "Failed to delete car" (some e), res.2)
      | .ok _ => ({ status := 204, body := .empty }, res.2)

end CarHandler

/-- Instrumented repository: the concrete store plus a counter bumped by
every storage call, to observe whether any storage operation was invoked. -/
def countingRepo : CarRepository (DB × Nat) where
  Create := fun s car =>
    let r := DbRepo.Create s.1 car
    (r.1, (r.2, s.2 + 1))
  GetByID := fun s id => (DbRepo.GetByID s.1 id, (s.1, s.2 + 1))
  GetByName := fun s n => (DbRepo.GetByName s.1 n, (s.1, s.2 + 1))
  GetByBrand := fun s b => (DbRepo.GetByBrand s.1 b, (s.1, s.2 + 1))
  GetByPriceRange := fun s a b => (DbRepo.GetByPriceRange s.1 a b, (s.1, s.2 + 1))
  GetAll := fun s p ps => (DbRepo.GetAll s.1 p ps, (s.1, s.2 + 1))
  Update := fun s car =>
    let r := DbRepo.Update s.1 car
    (r.1, (r.2, s.2 + 1))
  Delete := fun s id =>
    let r := DbRepo.Delete s.1 id
    (r.1, (r.2, s.2 + 1))

/-- The concrete repository with a name lookup that fails with an
infrastructure error (for example a lost connection) instead of a
not-found condition. -/
def faultyLookupRepo (msg : String) : CarRepository DB :=
  { dbRepo with GetByName := fun db _ => (.error (.plain msg), db) }

/-- A request shaped like the spec scenario payload. -/
def reqTesla : CarRequest :=
  { name := "Model S"
    brand := "Tesla"
    manufacturingValue := 79990
    description := none }

/-- A table whose only row (id 1, name "Model S") is soft-deleted: id 1 is
absent from every live query. -/
def dbDeleted : DB :=
  { rows := [{ id := 1
               name := "Model S"
               brand := "Tesla"
               manufacturingValue := 79990
               description := none
               createdAt := 5
               updatedAt := 5
               deletedAt := some 9 }]
    nextId := 2
    now := 10 }

/-- A live row named "Model S" with id 1. -/
def rowModelS : Row :=
  { id := 1
    name := "Model S"
    brand := "Tesla"
    manufacturingValue := 79990
    description := none
    createdAt := 5
    updatedAt := 5
    deletedAt := none }

/-- A table holding exactly the live row `rowModelS`. -/
def dbLive : DB :=
  { rows := [rowModelS]
    nextId := 2
    now := 10 }

/-- The live table ordered by id, as produced by `ORDER BY id`. -/
def sortedLive (db : DB) : List Row := List.insertionSort rowIdLe db.liveRows

/-- The row inserted by `carRepository.Create` for a given request. -/
def newRowOf (db : DB) (req : CarRequest) : Row :=
  { id := db.nextId
    name := req.name
    brand := req.brand
    manufacturingValue := req.manufacturingValue
    description := req.description
    createdAt := db.now
    updatedAt := db.now
    deletedAt := none }

/-- A table of 25 live rows with ids 1..25, for the pagination scenario. -/
def db25 : DB :=
  { rows := (List.range 25).map fun i =>
      { id := (i : Int) + 1
        name := "car" ++ toString (i + 1)
        brand := "B"
        manufacturingValue := 1
        description := none
        createdAt := 0
        updatedAt := 0
        deletedAt := none }
    nextId := 26
    now := 0 }

/-- C1: the claim says GET-by-id, GET-by-name, PUT and DELETE of an absent
or soft-deleted entity answer 404 because the handler recognizes the
not-found condition of the repository.  The code disagrees with the 404
branch and Swagger annotations: repository and service flatten the
`sql.ErrNoRows` sentinel with `fmt.Errorf` and the `%v` verb, so
`errors.Is(err, sql.ErrNoRows)` never matches and every such request
answers 500.  Evaluated here on a store whose only record (id 1, name
"Model S") is soft-deleted. -/
theorem c1_not_found_is_mapped_to_500_not_404 :
    (CarHandler.GetCarByID dbRepo dbDeleted "1").1.status = 500 ∧
    (CarHandler.GetCarByName dbRepo dbDeleted "Model S").1.status = 500 ∧
    (CarHandler.UpdateCar dbRepo dbDeleted "1" reqTesla).1.status = 500 ∧
    (CarHandler.DeleteCar dbRepo dbDeleted "1").1.status = 500 := by
  decide

theorem dbRepo_GetByName (db : DB) (n : String) :
    dbRepo.GetByName db n = (DbRepo.GetByName db n, db) := rfl

theorem dbRepo_GetByID (db : DB) (id : Int) :
    dbRepo.GetByID db id = (DbRepo.GetByID db id, db) := rfl

theorem dbRepo_GetAll (db : DB) (p ps : Int) :
    dbRepo.GetAll db p ps = (DbRepo.GetAll db p ps, db) := rfl

theorem dbRepo_Create (db : DB) (car : Car) :
    dbRepo.Create db car = DbRepo.Create db car := rfl

theorem dbRepo_Delete (db : DB) (id : Int) :
    dbRepo.Delete db id = DbRepo.Delete db id := rfl

theorem errorsIs_noRows_self : errorsIs sqlErrNoRows sqlErrNoRows = true := by decide

theorem errorsIs_plain_noRows (m : String) :
    errorsIs (.plain m) sqlErrNoRows = false := by
  simp [errorsIs, sqlErrNoRows]

theorem mem_of_headSome {α : Type} {l : List α} {a : α} (h : l.head? = some a) :
    a ∈ l := by
  cases l with
  | nil => simp at h
  | cons x xs =>
    simp only [List.head?_cons, Option.some.injEq] at h
    exact h ▸ List.mem_cons_self x xs

theorem selectOne_ok_mem {db : DB} {p : Row → Bool} {r : Row}
    (h : selectOne db p = .ok r) :
    r ∈ db.rows ∧ p r = true ∧ r.live = true := by
  unfold selectOne at h
  cases hh : (db.rows.filter fun r => p r && r.live).head? with
  | none => rw [hh] at h; simp at h
  | some r0 =>
    rw [hh] at h
    simp only [Except.ok.injEq] at h
    subst h
    have hmem := mem_of_headSome hh
    have := List.mem_filter.mp hmem
    exact ⟨this.1, (Bool.and_eq_true _ _).mp this.2 |>.1,
      (Bool.and_eq_true _ _).mp this.2 |>.2⟩

theorem selectOne_none {db : DB} {p : Row → Bool}
    (h : ∀ r ∈ db.rows, r.live = true → p r = false) :
    selectOne db p = .error sqlErrNoRows := by
  unfold selectOne
  have hnil : (db.rows.filter fun r => p r && r.live) = [] := by
    rw [List.filter_eq_nil_iff]
    intro a ha
    simp only [Bool.and_eq_true, not_and]
    intro hpa hla
    rw [h a ha hla] at hpa
    exact Bool.false_ne_true hpa
  rw [hnil]
  rfl

theorem GetByID_not_found {db : DB} {id : Int}
    (h : ∀ r ∈ db.rows, r.live = true → r.id ≠ id) :
    DbRepo.GetByID db id =
      .error (.plain ("car with ID " ++ toString id ++ " not found")) := by
  unfold DbRepo.GetByID
  rw [selectOne_none fun r hr hl => beq_eq_false_iff_ne.mpr (h r hr hl)]
  rfl

theorem GetByName_not_found {db : DB} {n : String}
    (h : ∀ r ∈ db.rows, r.live = true → r.name ≠ n) :
    DbRepo.GetByName db n =
      .error (.plain ("car with name " ++ n ++ " not found")) := by
  unfold DbRepo.GetByName
  rw [selectOne_none fun r hr hl => beq_eq_false_iff_ne.mpr (h r hr hl)]
  rfl

theorem Delete_ok_spec {db : DB} {id : Int} {db2 : DB}
    (h : DbRepo.Delete db id = (.ok (), db2)) :
    db2.rows = db.rows.map (fun r =>
      if r.id == id && r.live then { r with deletedAt := some db.now } else r) ∧
    db2.nextId = db.nextId ∧ db2.now = db.now := by
  simp only [DbRepo.Delete] at h
  split at h
  · simp at h
  · rw [Prod.mk.injEq] at h
    rw [← h.2]
    exact ⟨rfl, rfl, rfl⟩

theorem Delete_ok_killed {db : DB} {id : Int} {db2 : DB}
    (h : DbRepo.Delete db id = (.ok (), db2)) :
    ∀ r ∈ db2.rows, r.live = true → r.id ≠ id := by
  obtain ⟨hrows, -, -⟩ := Delete_ok_spec h
  intro r hr hlive hid
  rw [hrows] at hr
  obtain ⟨r0, hr0, rfl⟩ := List.mem_map.mp hr
  by_cases hc : (r0.id == id && r0.live) = true
  · rw [if_pos hc] at hlive
    simp [Row.live] at hlive
  · rw [if_neg hc] at hlive hid
    exact hc ((Bool.and_eq_true _ _).mpr ⟨beq_iff_eq.mpr hid, hlive⟩)

theorem GetAll_ok {db : DB} {p ps : Int} :
    DbRepo.GetAll db p ps =
      .ok ((((sortedLive db).drop (((p - 1) * ps).toNat)).take ps.toNat).map Row.toCar) := rfl

theorem GetAll_mem {db : DB} {p ps : Int} {l : List Car}
    (h : DbRepo.GetAll db p ps = .ok l) :
    ∀ c ∈ l, ∃ r, r ∈ db.rows ∧ r.live = true ∧ r.toCar = c := by
  rw [GetAll_ok, Except.ok.injEq] at h
  subst h
  intro c hc
  obtain ⟨r, hrmem, rfl⟩ := List.mem_map.mp hc
  have h1 : r ∈ sortedLive db :=
    List.drop_subset _ _ (List.take_subset _ _ hrmem)
  have h2 : r ∈ db.liveRows := (List.mem_insertionSort rowIdLe).mp h1
  have h3 := List.mem_filter.mp h2
  exact ⟨r, h3.1, h3.2, rfl⟩

theorem selectOne_insert {db : DB} {req : CarRequest}
    (hfresh : ∀ r ∈ db.rows, r.id ≠ db.nextId) :
    selectOne
      { rows := db.rows ++ [newRowOf db req]
        nextId := db.nextId + 1
        now := db.now } (fun r => r.id == db.nextId) = .ok (newRowOf db req) := by
  have hnil : (db.rows.filter fun r => (r.id == db.nextId) && r.live) = [] := by
    rw [List.filter_eq_nil_iff]
    intro a ha
    simp only [Bool.and_eq_true, not_and]
    intro hpa
    exact absurd (beq_iff_eq.mp hpa) (hfresh a ha)
  unfold selectOne
  simp only [List.filter_append, hnil, List.nil_append]
  simp [newRowOf, Row.live]

theorem GetByID_fresh_insert {db : DB} {req : CarRequest}
    (hfresh : ∀ r ∈ db.rows, r.id ≠ db.nextId) :
    DbRepo.GetByID
      { rows := db.rows ++ [newRowOf db req]
        nextId := db.nextId + 1
        now := db.now } db.nextId = .ok (newRowOf db req).toCar := by
  unfold DbRepo.GetByID
  rw [selectOne_insert hfresh]

theorem CreateCar_dbRepo_ok (db : DB) (req : CarRequest)
    (hval : CarService.validateCarRequest req = .ok ())
    (hnodup : ∀ r ∈ db.rows, r.live = true → r.name ≠ req.name)
    (hfresh : ∀ r ∈ db.rows, r.id ≠ db.nextId) :
    CarService.CreateCar dbRepo db req =
      (.ok (newRowOf db req).toCar.ToResponse,
       { rows := db.rows ++ [newRowOf db req]
         nextId := db.nextId + 1
         now := db.now }) := by
  have hlook : DbRepo.GetByName db req.name =
      .error (.plain ("car with name " ++ req.name ++ " not found")) :=
    GetByName_not_found hnodup
  simp only [CarService.CreateCar, hval, CarRequest.ToModel, dbRepo_GetByName, hlook,
    dbRepo_Create, dbRepo_GetByID, DbRepo.Create]
  rw [show ({ id := db.nextId
              name := req.name
              brand := req.brand
              manufacturingValue := req.manufacturingValue
              description := req.description
              createdAt := db.now
              updatedAt := db.now
              deletedAt := none } : Row) = newRowOf db req from rfl]
  rw [GetByID_fresh_insert hfresh]

theorem GetByName_ok_mem {db : DB} {n : String} {c : Car}
    (h : DbRepo.GetByName db n = .ok c) :
    ∃ r, r ∈ db.rows ∧ r.live = true ∧ r.name = n ∧ r.toCar = c := by
  unfold DbRepo.GetByName at h
  cases hs : selectOne db (fun r => r.name == n) with
  | ok r =>
    rw [hs] at h
    simp only [Except.ok.injEq] at h
    obtain ⟨hm, hp, hl⟩ := selectOne_ok_mem hs
    exact ⟨r, hm, hl, beq_iff_eq.mp hp, h⟩
  | error e =>
    rw [hs] at h
    have h2 : (if errorsIs e sqlErrNoRows = true then
        (Except.error (GoError.plain ("car with name " ++ n ++ " not found")) :
          Except GoError Car)
      else Except.error (.plain ("failed to get car by name: " ++ e.text))) = .ok c := h
    split at h2 <;> exact absurd h2 (by simp)

theorem Delete_none {db : DB} {id : Int}
    (h : ∀ r ∈ db.rows, r.live = true → r.id ≠ id) :
    (DbRepo.Delete db id).1 =
      .error (.plain ("car with ID " ++ toString id ++ " not found")) := by
  simp only [DbRepo.Delete]
  have hnil : (db.rows.filter fun r => (r.id == id) && r.live) = [] := by
    rw [List.filter_eq_nil_iff]
    intro a ha
    simp only [Bool.and_eq_true, not_and]
    intro hpa hla
    exact absurd (beq_iff_eq.mp hpa) (h a ha hla)
  rw [hnil]
  rfl

/-- C2: the claim says a duplicate-name create is surfaced as a 400-class
status.  The create handler maps every service failure, the conflict
included, to 500: evaluated on a store already holding a live "Model S"
row, the create of another "Model S" answers 500, which is not 400-class. -/
theorem c2_counterexample_conflict_is_500_not_400_class :
    (CarHandler.CreateCar dbRepo dbLive reqTesla).1.status = 500 ∧
    ¬(400 ≤ (CarHandler.CreateCar dbRepo dbLive reqTesla).1.status ∧
      (CarHandler.CreateCar dbRepo dbLive reqTesla).1.status < 500) := by
  decide

/-- C2 (amended): a create whose name collides with a live record is
rejected with the descriptive message "car with name ... already exists",
but the dispatch layer surfaces the conflict as HTTP 500, not as a
400-class status. -/
theorem c2_conflict_rejected_but_surfaced_as_500
    (db : DB) (req : CarRequest) (c : Car)
    (hval : CarService.validateCarRequest req = .ok ())
    (hdup : DbRepo.GetByName db req.name = .ok c) :
    CarHandler.CreateCar dbRepo db req =
      (CarHandler.handleError 500 "Failed to create car"
        (some (.plain ("car with name " ++ req.name ++ " already exists"))), db) := by
  simp only [CarHandler.CreateCar, CarService.CreateCar, hval, CarRequest.ToModel,
    dbRepo_GetByName, hdup]

/-- C2 witness: the amended statement at the concrete duplicate store. -/
theorem c2_conflict_witness :
    CarHandler.CreateCar dbRepo dbLive reqTesla =
      (CarHandler.handleError 500 "Failed to create car"
        (some (.plain ("car with name " ++ reqTesla.name ++ " already exists"))), dbLive) :=
  c2_conflict_rejected_but_surfaced_as_500 dbLive reqTesla rowModelS.toCar rfl rfl

/-- C3: once a delete has set deleted-at, the record is gone from every
standard query: get-by-id answers the not-found condition, no get-by-name,
list-by-brand or paged-listing result carries its id, a create whose name
is free among the remaining live rows succeeds (the uniqueness check
ignores the dead row), and a second delete of the same id answers
not-found. -/
theorem c3_soft_delete_excludes_everywhere (db : DB) (id : Int) (db2 : DB)
    (hdel : DbRepo.Delete db id = (.ok (), db2)) :
    DbRepo.GetByID db2 id =
      .error (.plain ("car with ID " ++ toString id ++ " not found")) ∧
    (∀ n c, DbRepo.GetByName db2 n = .ok c → c.id ≠ id) ∧
    (∀ b l c, DbRepo.GetByBrand db2 b = .ok l → c ∈ l → c.id ≠ id) ∧
    (∀ p ps l c, DbRepo.GetAll db2 p ps = .ok l → c ∈ l → c.id ≠ id) ∧
    (∀ req, CarService.validateCarRequest req = .ok () →
      (∀ r ∈ db2.rows, r.live = true → r.name ≠ req.name) →
      (∀ r ∈ db2.rows, r.id ≠ db2.nextId) →
      CarService.CreateCar dbRepo db2 req =
        (.ok (newRowOf db2 req).toCar.ToResponse,
         { rows := db2.rows ++ [newRowOf db2 req]
           nextId := db2.nextId + 1
           now := db2.now })) ∧
    (DbRepo.Delete db2 id).1 =
      .error (.plain ("car with ID " ++ toString id ++ " not found")) := by
  have killed := Delete_ok_killed hdel
  refine ⟨GetByID_not_found killed, ?_, ?_, ?_, ?_, Delete_none killed⟩
  · intro n c h
    obtain ⟨r, hm, hl, -, rfl⟩ := GetByName_ok_mem h
    exact killed r hm hl
  · intro b l c h hc
    unfold DbRepo.GetByBrand at h
    rw [Except.ok.injEq] at h
    subst h
    obtain ⟨r, hr, rfl⟩ := List.mem_map.mp hc
    have hmf := List.mem_filter.mp hr
    exact killed r hmf.1 ((Bool.and_eq_true _ _).mp hmf.2).2
  · intro p ps l c h hc
    obtain ⟨r, hm, hl, rfl⟩ := GetAll_mem h c hc
    exact killed r hm hl
  · intro req hv hnodup hfresh
    exact CreateCar_dbRepo_ok db2 req hv hnodup hfresh

/-- C3 witness: deleting the only live row of `dbLive` (id 1, "Model S"),
then re-reading, re-creating the same name, and re-deleting. -/
theorem c3_soft_delete_witness :
    DbRepo.GetByID (DbRepo.Delete dbLive 1).2 1 =
      .error (.plain ("car with ID " ++ toString (1 : Int) ++ " not found")) ∧
    CarService.CreateCar dbRepo (DbRepo.Delete dbLive 1).2 reqTesla =
      (.ok (newRowOf (DbRepo.Delete dbLive 1).2 reqTesla).toCar.ToResponse,
       { rows := (DbRepo.Delete dbLive 1).2.rows ++
           [newRowOf (DbRepo.Delete dbLive 1).2 reqTesla]
         nextId := (DbRepo.Delete dbLive 1).2.nextId + 1
         now := (DbRepo.Delete dbLive 1).2.now }) ∧
    (DbRepo.Delete (DbRepo.Delete dbLive 1).2 1).1 =
      .error (.plain ("car with ID " ++ toString (1 : Int) ++ " not found")) := by
  have h := c3_soft_delete_excludes_everywhere dbLive 1 (DbRepo.Delete dbLive 1).2 rfl
  exact ⟨h.1, h.2.2.2.2.1 reqTesla rfl (by decide) (by decide), h.2.2.2.2.2⟩

/-- C4: a create or update whose manufacturing value v has v ≤ 0 or
v ≥ 15,000,000 is rejected by validation before any storage operation is
invoked (the instrumented repository state, counter included, is returned
untouched); and validation passes whenever 0 < v < 15,000,000 with
non-empty name and brand. -/
theorem c4_value_validation_guards_storage (req : CarRequest) :
    (req.manufacturingValue ≤ 0 ∨ req.manufacturingValue ≥ 15000000 →
      (∃ msg, CarService.validateCarRequest req = .error (.plain msg)) ∧
      (∀ db k, ∃ e, CarService.CreateCar countingRepo (db, k) req = (.error e, (db, k))) ∧
      (∀ db k id, 0 < id →
        ∃ e, CarService.UpdateCar countingRepo (db, k) id req = (.error e, (db, k)))) ∧
    (0 < req.manufacturingValue → req.manufacturingValue < 15000000 →
      req.name ≠ "" → req.brand ≠ "" →
      CarService.validateCarRequest req = .ok ()) := by
  constructor
  · intro hbad
    have hv : ∃ msg, CarService.validateCarRequest req = .error (.plain msg) := by
      unfold CarService.validateCarRequest
      by_cases h1 : req.name = ""
      · rw [if_pos h1]; exact ⟨_, rfl⟩
      · rw [if_neg h1]
        by_cases h2 : req.brand = ""
        · rw [if_pos h2]; exact ⟨_, rfl⟩
        · rw [if_neg h2]
          by_cases h3 : req.manufacturingValue ≤ 0
          · rw [if_pos h3]; exact ⟨_, rfl⟩
          · rw [if_neg h3]
            have h4 : req.manufacturingValue ≥ 15000000 :=
              hbad.resolve_left h3
            rw [if_pos h4]
            exact ⟨_, rfl⟩
    obtain ⟨msg, hmsg⟩ := hv
    refine ⟨⟨msg, hmsg⟩, ?_, ?_⟩
    · intro db k
      exact ⟨.plain msg, by simp only [CarService.CreateCar, hmsg]⟩
    · intro db k id hid
      refine ⟨.plain msg, ?_⟩
      simp only [CarService.UpdateCar, hmsg]
      rw [if_neg (not_le.mpr hid)]
  · intro h0 hlt hname hbrand
    unfold CarService.validateCarRequest
    rw [if_neg hname, if_neg hbrand, if_neg (not_le.mpr h0), if_neg (not_le.mpr hlt)]

/-- C4 witness: the boundary value 15,000,000 is rejected and the scenario
payload (79,990) passes. -/
theorem c4_value_validation_witness :
    (∃ msg, CarService.validateCarRequest
      { name := "X", brand := "Y", manufacturingValue := 15000000, description := none } =
        .error (.plain msg)) ∧
    CarService.validateCarRequest reqTesla = .ok () := by
  constructor
  · exact ((c4_value_validation_guards_storage
      { name := "X", brand := "Y", manufacturingValue := 15000000, description := none }).1
      (Or.inr (by decide))).1
  · exact (c4_value_validation_guards_storage reqTesla).2
      (by decide) (by decide) (by decide) (by decide)

/-- C5: a create that succeeds against the concrete store (with a
well-formed serial counter: positive and fresh) returns a record with a
positive id, equal created-at and updated-at, whose stored row has no
deleted-at, and the response is exactly the re-fetch of that row by the
generated id. -/
theorem c5_create_reflects_storage (db : DB) (req : CarRequest)
    (resp : CarResponse) (db2 : DB)
    (hpos : 0 < db.nextId)
    (hfresh : ∀ r ∈ db.rows, r.id ≠ db.nextId)
    (hok : CarService.CreateCar dbRepo db req = (.ok resp, db2)) :
    0 < resp.id ∧ resp.createdAt = resp.updatedAt ∧
    (∃ row, row ∈ db2.rows ∧ row.id = resp.id ∧ row.deletedAt = none ∧
      DbRepo.GetByID db2 resp.id = .ok row.toCar ∧ resp = row.toCar.ToResponse) := by
  simp only [CarService.CreateCar, CarRequest.ToModel, dbRepo_GetByName, dbRepo_Create,
    dbRepo_GetByID, DbRepo.Create] at hok
  cases hv : CarService.validateCarRequest req with
  | error e => rw [hv] at hok; simp at hok
  | ok u =>
    rw [hv] at hok
    cases hl : DbRepo.GetByName db req.name with
    | ok c => rw [hl] at hok; simp at hok
    | error e2 =>
      rw [hl] at hok
      rw [show ({ id := db.nextId
                  name := req.name
                  brand := req.brand
                  manufacturingValue := req.manufacturingValue
                  description := req.description
                  createdAt := db.now
                  updatedAt := db.now
                  deletedAt := none } : Row) = newRowOf db req from rfl] at hok
      rw [GetByID_fresh_insert hfresh] at hok
      simp only [Prod.mk.injEq, Except.ok.injEq] at hok
      obtain ⟨h1, h2⟩ := hok
      subst h1
      subst h2
      refine ⟨hpos, rfl, newRowOf db req, ?_, rfl, rfl,
        GetByID_fresh_insert hfresh, rfl⟩
      exact List.mem_append.mpr (Or.inr (List.mem_singleton.mpr rfl))

/-- C5 witness: creating the scenario payload over the store whose only
row is soft-deleted. -/
theorem c5_create_witness :
    0 < (newRowOf dbDeleted reqTesla).toCar.ToResponse.id ∧
    (newRowOf dbDeleted reqTesla).toCar.ToResponse.createdAt =
      (newRowOf dbDeleted reqTesla).toCar.ToResponse.updatedAt :=
  let h := c5_create_reflects_storage dbDeleted reqTesla
    (newRowOf dbDeleted reqTesla).toCar.ToResponse
    { rows := dbDeleted.rows ++ [newRowOf dbDeleted reqTesla]
      nextId := dbDeleted.nextId + 1
      now := dbDeleted.now } (by decide) (by decide) rfl
  ⟨h.1, h.2.1⟩

/-- C6: paged listing over positive page and pageSize is the live table
ordered by ascending id with exactly (page-1)*pageSize records skipped and
at most pageSize returned; over the 25-row table, pages 1, 2, 3 of size 10
hold 10, 10 and 5 records with ascending ids. -/
theorem c6_pagination_skips_and_takes (db : DB) (page pageSize : Int)
    (hp : 1 ≤ page) (hs : 1 ≤ pageSize) :
    DbRepo.GetAll db page pageSize =
      .ok ((((sortedLive db).drop (((page - 1) * pageSize).toNat)).take
        pageSize.toNat).map Row.toCar) ∧
    (∀ l, DbRepo.GetAll db page pageSize = .ok l →
      l.length ≤ pageSize.toNat ∧
      List.Sorted (fun a b : Car => a.id ≤ b.id) l ∧
      ∀ c ∈ l, ∃ r, r ∈ db.rows ∧ r.live = true ∧ r.toCar = c) ∧
    (∃ l1, DbRepo.GetAll db25 1 10 = .ok l1 ∧ l1.length = 10 ∧
      l1.map Car.id = [1, 2, 3, 4, 5, 6, 7, 8, 9, 10]) ∧
    (∃ l2, DbRepo.GetAll db25 2 10 = .ok l2 ∧ l2.length = 10 ∧
      l2.map Car.id = [11, 12, 13, 14, 15, 16, 17, 18, 19, 20]) ∧
    (∃ l3, DbRepo.GetAll db25 3 10 = .ok l3 ∧ l3.length = 5 ∧
      l3.map Car.id = [21, 22, 23, 24, 25]) := by
  refine ⟨GetAll_ok, ?_, ⟨_, rfl, by decide, by decide⟩,
    ⟨_, rfl, by decide, by decide⟩, ⟨_, rfl, by decide, by decide⟩⟩
  intro l h
  rw [GetAll_ok, Except.ok.injEq] at h
  subst h
  refine ⟨?_, ?_, GetAll_mem GetAll_ok⟩
  · rw [List.length_map]
    rw [List.length_take]
    exact min_le_left _ _
  · have hsorted := List.sorted_insertionSort rowIdLe db.liveRows
    have hsub : (((sortedLive db).drop (((page - 1) * pageSize).toNat)).take
        pageSize.toNat).Sublist (sortedLive db) :=
      (List.take_sublist _ _).trans (List.drop_sublist _ _)
    exact List.pairwise_map.mpr ((List.Pairwise.sublist hsub hsorted).imp fun hab => hab)

/-- C6 witness: the first page of the 25-row table. -/
theorem c6_pagination_witness :
    DbRepo.GetAll db25 1 10 =
      .ok ((((sortedLive db25).drop ((((1 : Int) - 1) * 10).toNat)).take
        ((10 : Int)).toNat).map Row.toCar) :=
  (c6_pagination_skips_and_takes db25 1 10 (by decide) (by decide)).1

/-- C7: the price-range filter is inclusive on both ends: for min ≤ max, a
live row whose value equals min or max appears in the result, and every
value of every returned record lies in the closed interval. -/
theorem c7_price_range_inclusive_bounds (db : DB) (minP maxP : Rat) :
    (∀ r, r ∈ db.rows → r.live = true → minP ≤ maxP →
      (r.manufacturingValue = minP ∨ r.manufacturingValue = maxP) →
      ∃ l, DbRepo.GetByPriceRange db minP maxP = .ok l ∧ r.toCar ∈ l) ∧
    (∀ l c, DbRepo.GetByPriceRange db minP maxP = .ok l → c ∈ l →
      minP ≤ c.manufacturingValue ∧ c.manufacturingValue ≤ maxP) := by
  constructor
  · intro r hr hl hle hval
    refine ⟨_, rfl, ?_⟩
    refine List.mem_map.mpr ⟨r, List.mem_filter.mpr ⟨hr, ?_⟩, rfl⟩
    simp only [Bool.and_eq_true, decide_eq_true_eq]
    refine ⟨⟨?_, ?_⟩, hl⟩
    · rcases hval with h | h
      · exact le_of_eq h.symm
      · rw [h]; exact hle
    · rcases hval with h | h
      · rw [h]; exact hle
      · exact le_of_eq h
  · intro l c h hc
    unfold DbRepo.GetByPriceRange at h
    rw [Except.ok.injEq] at h
    subst h
    obtain ⟨r, hr, rfl⟩ := List.mem_map.mp hc
    have hand := (List.mem_filter.mp hr).2
    simp only [Bool.and_eq_true, decide_eq_true_eq] at hand
    exact ⟨hand.1.1, hand.1.2⟩

/-- C7 witness: a live row priced exactly at the lower bound is returned
and bounded. -/
theorem c7_price_range_witness :
    ∃ l, DbRepo.GetByPriceRange dbLive 79990 100000 = .ok l ∧
      rowModelS.toCar ∈ l :=
  (c7_price_range_inclusive_bounds dbLive 79990 100000).1 rowModelS
    (by decide) (by decide) (by decide) (Or.inl (by decide))

theorem GetAllCars_dbRepo_eq (db : DB) (pg sz : Int) :
    CarService.GetAllCars dbRepo db pg sz =
      (.ok (CarService.toCarResponses
        ((((sortedLive db).drop ((((if pg < 1 then 1 else pg) - 1) *
            (if sz < 1 ∨ sz > 100 then 10 else sz)).toNat)).take
          (if sz < 1 ∨ sz > 100 then 10 else sz).toNat).map Row.toCar)), db) := by
  simp only [CarService.GetAllCars, dbRepo_GetAll, GetAll_ok]

/-- C8: the paged-list service silently clamps its parameters: page < 1 is
served as page 1, pageSize outside [1,100] as 10, and the operation
succeeds against the concrete store for every page and pageSize. -/
theorem c8_paging_params_clamped (db : DB) (page pageSize : Int) :
    (∃ cars, CarService.GetAllCars dbRepo db page pageSize = (.ok cars, db)) ∧
    (page < 1 → CarService.GetAllCars dbRepo db page pageSize =
      CarService.GetAllCars dbRepo db 1 pageSize) ∧
    (pageSize < 1 ∨ pageSize > 100 → CarService.GetAllCars dbRepo db page pageSize =
      CarService.GetAllCars dbRepo db page 10) := by
  refine ⟨⟨_, GetAllCars_dbRepo_eq db page pageSize⟩, ?_, ?_⟩
  · intro h
    simp only [CarService.GetAllCars, if_pos h, ite_self]
  · intro h
    simp only [CarService.GetAllCars, if_pos h,
      if_neg (show ¬((10 : Int) < 1 ∨ (10 : Int) > 100) by decide)]

/-- C8 witness: page 0 is served as page 1, and pageSize 101 as 10. -/
theorem c8_paging_witness :
    CarService.GetAllCars dbRepo db25 0 101 =
      CarService.GetAllCars dbRepo db25 1 101 ∧
    CarService.GetAllCars dbRepo db25 0 101 =
      CarService.GetAllCars dbRepo db25 0 10 :=
  ⟨(c8_paging_params_clamped db25 0 101).2.1 (by decide),
   (c8_paging_params_clamped db25 0 101).2.2 (Or.inr (by decide))⟩

theorem faultyRepo_GetByName (msg : String) (db : DB) (n : String) :
    (faultyLookupRepo msg).GetByName db n = (.error (.plain msg), db) := rfl

theorem faultyRepo_Create (msg : String) (db : DB) (car : Car) :
    (faultyLookupRepo msg).Create db car = DbRepo.Create db car := rfl

theorem faultyRepo_GetByID (msg : String) (db : DB) (id : Int) :
    (faultyLookupRepo msg).GetByID db id = (DbRepo.GetByID db id, db) := rfl

/-- C9: the duplicate-name rejection fires exactly when the lookup-by-name
returns a record: against any repository whose lookup succeeds the create
is rejected with the conflict message, while against the repository whose
lookup fails with an infrastructure error (any message) the create skips
the uniqueness check and inserts — even when the store already holds a
live row with the same name. -/
theorem c9_lookup_error_skips_uniqueness (db : DB) (req : CarRequest) (msg : String)
    (hval : CarService.validateCarRequest req = .ok ())
    (hfresh : ∀ r ∈ db.rows, r.id ≠ db.nextId) :
    (CarService.CreateCar (faultyLookupRepo msg) db req =
      (.ok (newRowOf db req).toCar.ToResponse,
       { rows := db.rows ++ [newRowOf db req]
         nextId := db.nextId + 1
         now := db.now })) ∧
    (∀ (σ : Type) (R : CarRepository σ) (s s1 : σ) (c : Car),
      R.GetByName s req.name = (.ok c, s1) →
      CarService.CreateCar R s req =
        (.error (.plain ("car with name " ++ req.name ++ " already exists")), s1)) := by
  constructor
  · simp only [CarService.CreateCar, hval, CarRequest.ToModel, faultyRepo_GetByName,
      faultyRepo_Create, faultyRepo_GetByID, DbRepo.Create]
    rw [show ({ id := db.nextId
                name := req.name
                brand := req.brand
                manufacturingValue := req.manufacturingValue
                description := req.description
                createdAt := db.now
                updatedAt := db.now
                deletedAt := none } : Row) = newRowOf db req from rfl]
    rw [GetByID_fresh_insert hfresh]
  · intro σ R s s1 c h
    simp only [CarService.CreateCar, hval, CarRequest.ToModel, h]

/-- C9 witness: the store already holds a live "Model S", the lookup fails
with a connection error, and the create of another "Model S" still
inserts. -/
theorem c9_lookup_error_witness :
    CarService.CreateCar (faultyLookupRepo "connection refused") dbLive reqTesla =
      (.ok (newRowOf dbLive reqTesla).toCar.ToResponse,
       { rows := dbLive.rows ++ [newRowOf dbLive reqTesla]
         nextId := dbLive.nextId + 1
         now := dbLive.now }) :=
  (c9_lookup_error_skips_uniqueness dbLive reqTesla "connection refused"
    rfl (by decide)).1

/-- C10: a paged-list request with non-numeric page or pageSize query
parameters is not a client error: the parse failure is discarded, the
parameters become 0, the service normalizes them to page 1 and pageSize
10, and the request is answered 200 exactly as if the defaults had been
passed. -/
theorem c10_non_numeric_paging_served_with_defaults (db : DB) (p q : String)
    (hp : goParseInt p = none) (hq : goParseInt q = none) :
    (CarHandler.GetAllCars dbRepo db (some p) (some q)).1.status = 200 ∧
    CarHandler.GetAllCars dbRepo db (some p) (some q) =
      CarHandler.GetAllCars dbRepo db (some "1") (some "10") := by
  have hp0 : goAtoi p = 0 := by simp [goAtoi, hp]
  have hq0 : goAtoi q = 0 := by simp [goAtoi, hq]
  have h1 : goAtoi "1" = 1 := by decide
  have h10 : goAtoi "10" = 10 := by decide
  have hnum : CarService.GetAllCars dbRepo db 0 0 =
      CarService.GetAllCars dbRepo db 1 10 := by
    simp [CarService.GetAllCars]
  constructor
  · simp only [CarHandler.GetAllCars, Option.getD_some, hp0, hq0, hnum,
      CarService.GetAllCars, dbRepo_GetAll, GetAll_ok]
  · simp only [CarHandler.GetAllCars, Option.getD_some, hp0, hq0, h1, h10, hnum]

/-- C10 witness: literal garbage parameters answer 200 and coincide with
the default page. -/
theorem c10_non_numeric_witness :
    (CarHandler.GetAllCars dbRepo db25 (some "abc") (some "2x")).1.status = 200 ∧
    CarHandler.GetAllCars dbRepo db25 (some "abc") (some "2x") =
      CarHandler.GetAllCars dbRepo db25 (some "1") (some "10") :=
  c10_non_numeric_paging_served_with_defaults db25 "abc" "2x" (by decide) (by decide)
